import Mathlib

/-!
Shallow embedding of `web.go` from the relay_go repository: the event
ingestion and broadcast hub of a lap-tracking dashboard.

The Go program is a set of goroutines communicating over channels:
* `handleLaps` (one per reader connection) reads text frames, parses each
  with `strconv.Atoi`, and on success sends the tag id on the `tags` channel;
* `serviceTagChannel` (singleton) selects over `tags`/`quitTags`, calls
  `ds.IncrementLaps(tagKey)` for each tag, and on success sends the
  resulting `Notification` on the `notify` channel;
* `serviceNotifyChannel` (singleton) selects over
  `register`/`unregister`/`notify`/`quitNotify`, owns the client map, and
  fans each notification out to every registered client's `send` channel;
* `handleNotify` (one per viewer connection) drains its client's `send`
  channel, writes each notification to the websocket, and on write failure
  sends `unregister` and returns.

Each loop is embedded as a pure function over the list of events the loop
receives from its channels, in the order the Go select loop would consume
them.  A goroutine's side effects (channel sends, storage calls) are
collected into result lists, in order.
-/

/-- Modelled from the spec: the `Notification` type is produced by the
storage collaborator (`db.go`, not part of the observed core).  Per the
spec it is an immutable record with at least a team/tag identifier, a
human-readable label, and the updated lap count. -/
structure Notification where
  identifier : Int
  label : String
  count : Nat
deriving DecidableEq, Repr

/-! ### `strconv.Atoi` (used at `web.go:148`)

Go's `strconv.Atoi(s)` is `ParseInt(s, 10, 0)` on a 64-bit platform: an
optional `+`/`-` sign followed by at least one decimal digit, rejecting any
other character, the empty string, a bare sign, and any value outside
`[-2^63, 2^63-1]` (range errors make `Atoi` return a non-nil error, which
`handleLaps` treats as a parse failure). -/

/-- The numeric value of a decimal digit character, `none` otherwise. -/
def digitVal (c : Char) : Option Nat :=
  if '0' ≤ c ∧ c ≤ '9' then some (c.toNat - '0'.toNat) else none

/-- Accumulate the value of a run of decimal digits; `none` on the first
non-digit character. -/
def parseDigits (acc : Nat) : List Char → Option Nat
  | [] => some acc
  | c :: cs =>
    match digitVal c with
    | some d => parseDigits (acc * 10 + d) cs
    | none => none

/-- The magnitude part of `Atoi`: at least one digit, all digits. -/
def parseMagnitude : List Char → Option Nat
  | [] => none
  | s => parseDigits 0 s

/-- Go `strconv.Atoi` on a 64-bit platform, on the frame's characters.
`none` models a non-nil error. -/
def goAtoi (s : List Char) : Option Int :=
  match s with
  | '+' :: rest =>
    (parseMagnitude rest).bind fun m =>
      if m ≤ 2 ^ 63 - 1 then some (Int.ofNat m) else none
  | '-' :: rest =>
    (parseMagnitude rest).bind fun m =>
      if m ≤ 2 ^ 63 then some (-(Int.ofNat m)) else none
  | _ =>
    (parseMagnitude s).bind fun m =>
      if m ≤ 2 ^ 63 - 1 then some (Int.ofNat m) else none

/-! ### Tag Source Adapter: `handleLaps` (`web.go:137-160`)

One instance per reader connection.  Its loop calls `conn.ReadMessage()`;
a read error breaks the loop and the handler returns; otherwise the frame
is parsed with `strconv.Atoi` and, on success, the id is sent on
`svr.tags`.  On parse failure it only logs and continues. -/

/-- One result of `conn.ReadMessage()`: a text frame, or a read error
(which terminates the connection's loop). -/
inductive Frame
  | msg (s : List Char)
  | readErr
deriving DecidableEq, Repr

/-- The sequence of tag ids `handleLaps` sends on the `tags` channel when
its successive `ReadMessage` results are `frames`, in order.  Processing
stops at the first read error (`break` at `web.go:156`); a parse failure
contributes nothing and the loop continues (`web.go:152`). -/
def handleLaps : List Frame → List Int
  | [] => []
  | .readErr :: _ => []
  | .msg s :: rest =>
    match goAtoi s with
    | some tagID => tagID :: handleLaps rest
    | none => handleLaps rest

/-- The log lines `handleLaps`'s loop emits (prefixes only; the logged
values are elided): a parse failure logs and continues (`web.go:152`), a
read error logs and breaks (`web.go:155-156`). -/
def handleLapsLogs : List Frame → List String
  | [] => []
  | .readErr :: _ => ["conn.ReadMessage: "]
  | .msg s :: rest =>
    match goAtoi s with
    | some _ => handleLapsLogs rest
    | none => "strconv.Atoi: " :: handleLapsLogs rest

/-! ### Ingestion Coordinator: `serviceTagChannel` (`web.go:163-183`)

A singleton goroutine.  It first calls `ConnectToDB()`; on error it
returns before entering its loop (`web.go:166-169`).  Its select loop
receives either a tag id from `svr.tags` or a quit signal from
`svr.quitTags`; a tag id triggers exactly one `ds.IncrementLaps(tagKey)`
call, whose successful result is sent on `svr.notify`; a failed call is
dropped silently (the `if err == nil` at `web.go:175` has no else branch)
and the loop continues; quit makes the goroutine return. -/

/-- One event received by `serviceTagChannel`'s select loop. -/
inductive CoordEvent
  | tag (k : Int)
  | quitTags
deriving DecidableEq, Repr

/-- The observable behaviour of one run of `serviceTagChannel`:
the `IncrementLaps` invocations in call order, the notifications sent on
`svr.notify` in send order, and how many channel events the loop
received. -/
structure CoordResult where
  calls : List Int
  notifs : List Notification
  consumed : Nat
deriving DecidableEq, Repr

/-- `serviceTagChannel`, as a function of whether `ConnectToDB` succeeded
(`connectOk`), of the storage collaborator's behaviour
(`env k = some n` models `IncrementLaps(k)` returning `n` with nil error,
`env k = none` models a non-nil error), and of the list of events the
select loop receives, in order.  A failed `ConnectToDB` returns before
the loop, consuming nothing (`web.go:166-169`); a `quitTags` event is
consumed and stops the loop (`web.go:178-180`). -/
def serviceTagChannel (connectOk : Bool) (env : Int → Option Notification) :
    List CoordEvent → CoordResult :=
  fun events =>
    if connectOk then loop events else ⟨[], [], 0⟩
where
  loop : List CoordEvent → CoordResult
    | [] => ⟨[], [], 0⟩
    | .quitTags :: _ => ⟨[], [], 1⟩
    | .tag k :: rest =>
      let r := loop rest
      match env k with
      | some n => ⟨k :: r.calls, n :: r.notifs, r.consumed + 1⟩
      | none => ⟨k :: r.calls, r.notifs, r.consumed + 1⟩

/-- The log lines `serviceTagChannel`'s select loop emits: only the quit
case logs (`web.go:179`).  The tag case runs
`if notif, err := ds.IncrementLaps(tagKey); err == nil { svr.notify <- notif }`
(`web.go:175-177`), which has no else branch: a failed increment runs no
statement at all — in particular it is not logged. -/
def coordLoopLogs (env : Int → Option Notification) : List CoordEvent → List String
  | [] => []
  | .quitTags :: _ => ["serviceTagChannel exiting"]
  | .tag k :: rest =>
    match env k with
    | some _ => coordLoopLogs env rest
    | none => coordLoopLogs env rest

/-! ### Merges: concurrent submission into the `tags` channel

Many `handleLaps` goroutines send on the single `tags` channel
concurrently; the channel delivers some interleaving of their individual
send sequences to the single `serviceTagChannel` receiver. -/

/-- `Merge ls t`: `t` is an interleaving of the lists in `ls` — each step
removes the head of one of the lists.  This is the set of possible
delivery orders of the shared `tags` channel when reader `i` sends the
sequence `ls.get i`. -/
inductive Merge : List (List Int) → List Int → Prop
  | nil (m : Nat) : Merge (List.replicate m []) []
  | step (pre suf : List (List Int)) (x : Int) (xs t) :
      Merge (pre ++ [xs] ++ suf) t →
      Merge (pre ++ [x :: xs] ++ suf) (x :: t)

/-! ### Broadcast Hub: `serviceNotifyChannel` (`web.go:210-229`)

A singleton goroutine owning `clients : map[*notifyClient]bool`.  Its
select loop receives register, unregister, notification and quit events.
We identify each `*notifyClient` by a natural number (Go pointers are
distinct identity tokens, never reused), the map by a `Finset ℕ`, and each
client's `send` channel by the list of notifications ever enqueued onto it
(this idealises the bounded send at `web.go:222` as completing — the
bounded behaviour is modelled separately below). -/

/-- One event received by `serviceNotifyChannel`'s select loop. -/
inductive HubEvent
  | register (c : Nat)
  | unregister (c : Nat)
  | notify (n : Notification)
  | quit
deriving DecidableEq, Repr

/-- The hub's state: the membership map `clients` and, for each client
identity, the sequence of notifications enqueued onto its `send`
channel so far. -/
structure HubState where
  clients : Finset Nat
  queues : Nat → List Notification

/-- `serviceNotifyChannel`'s state just after `clients` is allocated
(`web.go:212`): empty membership, every queue empty (each client's `send`
channel is made fresh at `web.go:193`). -/
def hubInit : HubState := ⟨∅, fun _ => []⟩

/-- The `notif` case of the select loop (`web.go:220-223`): enqueue
`n` onto the `send` channel of every currently-registered client. -/
def fanout (cs : Finset Nat) (qs : Nat → List Notification) (n : Notification) :
    Nat → List Notification :=
  fun c => if c ∈ cs then qs c ++ [n] else qs c

/-- One iteration of `serviceNotifyChannel`'s select loop
(`web.go:215-227`): `clients[r] = true`, `delete(clients, ur)`, fan-out,
or (for quit, handled by the run function) return. -/
def serviceNotifyStep (s : HubState) : HubEvent → HubState
  | .register c => ⟨insert c s.clients, s.queues⟩
  | .unregister c => ⟨s.clients.erase c, s.queues⟩
  | .notify n => ⟨s.clients, fanout s.clients s.queues n⟩
  | .quit => s

/-- `serviceNotifyChannel` run over the list of events its select loop
receives, in order; a quit event makes the goroutine return
(`web.go:224-226`), leaving any later events unprocessed. -/
def serviceNotifyChannel (s : HubState) : List HubEvent → HubState
  | [] => s
  | .quit :: _ => s
  | e :: events => serviceNotifyChannel (serviceNotifyStep s e) events

/-- The membership set evolved from `cs` by an event list (the hub's
`clients` map ignores queues). -/
def clientsAfter (cs : Finset Nat) : List HubEvent → Finset Nat
  | [] => cs
  | .quit :: _ => cs
  | .register c :: events => clientsAfter (insert c cs) events
  | .unregister c :: events => clientsAfter (cs.erase c) events
  | .notify _ :: events => clientsAfter cs events

/-- The notifications the hub processes from an event list, in processing
order (cut off at a quit event, like the run). -/
def notifsOf : List HubEvent → List Notification
  | [] => []
  | .quit :: _ => []
  | .notify n :: events => n :: notifsOf events
  | .register _ :: events => notifsOf events
  | .unregister _ :: events => notifsOf events

/-- The notifications delivered to client `c`'s queue while the hub,
starting with membership `cs`, processes an event list: exactly the
processed notifications during whose processing `c` was a member. -/
def deliveredFrom (cs : Finset Nat) (c : Nat) : List HubEvent → List Notification
  | [] => []
  | .quit :: _ => []
  | .register c' :: events => deliveredFrom (insert c' cs) c events
  | .unregister c' :: events => deliveredFrom (cs.erase c') c events
  | .notify n :: events =>
    (if c ∈ cs then [n] else []) ++ deliveredFrom cs c events

/-! ### Bounded fan-out (`web.go:193` and `web.go:222`)

Each client's `send` channel is `make(chan Notification, 10)`: a buffered
channel of capacity 10.  The hub's `client.send <- notif` is a plain
blocking send: it completes only when the buffer holds fewer than 10
notifications, and otherwise suspends the hub's whole loop until the
client's `handleNotify` drains the buffer.  Go iterates the `clients` map
in an arbitrary order, so the fan-out is modelled over an explicit
iteration order. -/

/-- Capacity of each client's `send` channel (`web.go:193`). -/
def notifyClientSendCap : Nat := 10

/-- A send on a buffered channel of capacity `cap` whose buffer currently
holds `buf`: completes immediately iff the buffer is not full. -/
def chanTrySend (cap : Nat) (buf : List Notification) (n : Notification) :
    Option (List Notification) :=
  if buf.length < cap then some (buf ++ [n]) else none

/-- Fan-out of `n` over the membership set in iteration order `order`,
with each `client.send <- notif` a bounded blocking send and no client
draining its buffer meanwhile.  Returns the queues after the fan-out and
whether it completed: hitting a full buffer leaves the hub suspended on
that send (`false`), with every later client undelivered. -/
def fanoutBounded (qs : Nat → List Notification) (n : Notification) :
    List Nat → (Nat → List Notification) × Bool
  | [] => (qs, true)
  | c :: cs =>
    match chanTrySend notifyClientSendCap (qs c) n with
    | some q => fanoutBounded (Function.update qs c q) n cs
    | none => (qs, false)

/-- A membership state in which subscriber 0's capacity-10 delivery queue
is already full of pending notifications its sink never drains, and
subscriber 1's queue is empty. -/
def fullQueueState : Nat → List Notification :=
  fun c => if c = 0 then List.replicate 10 ⟨0, "stale", 0⟩ else []

/-! ### Notification Sink Adapter: `handleNotify` (`web.go:186-206`)

One instance per viewer connection.  After a successful upgrade it
allocates its client and sends `register`; its loop receives from
`client.send` and calls `conn.WriteJSON(notif)`; on a write error it sends
`unregister` once and returns — the only exit from the loop. -/

/-- The observable behaviour of `handleNotify`'s delivery loop:
the notifications successfully written to the websocket, in order, and
how many `unregister` messages it sent to the hub. -/
structure SinkResult where
  written : List Notification
  unregisters : Nat
deriving DecidableEq, Repr

/-- `handleNotify`'s loop over the successive notifications received from
`client.send`, where `writeOk n` tells whether `conn.WriteJSON(n)`
returns nil.  A failed write sends `unregister` and returns
(`web.go:199-203`), so later notifications are not consumed. -/
def handleNotify (writeOk : Notification → Bool) : List Notification → SinkResult
  | [] => ⟨[], 0⟩
  | n :: rest =>
    if writeOk n then
      let r := handleNotify writeOk rest
      ⟨n :: r.written, r.unregisters⟩
    else ⟨[], 1⟩

/-! ### Channel wiring and shutdown: `StartWebServer` (`web.go:232-274`)

The channels are created at `web.go:234-239`; after `ListenAndServe`
returns, the main goroutine sends on the unbuffered `quitTags`, then on
the unbuffered `quitNotify`, then sleeps one second (`web.go:268-273`).
A send on an unbuffered channel completes only by rendezvous with a
receiver; the only receiver of `quitTags` is `serviceTagChannel`'s select
(`web.go:178`) and the only receiver of `quitNotify` is
`serviceNotifyChannel`'s select (`web.go:224`). -/

/-- The channel capacities chosen in `StartWebServer` (`web.go:234-239`). -/
structure WebServerChans where
  tagsCap : Nat
  quitTagsCap : Nat
  notifyCap : Nat
  quitNotifyCap : Nat
  registerCap : Nat
  unregisterCap : Nat
deriving DecidableEq, Repr

/-- The `webServer` channel set as built at `web.go:233-240`. -/
def startWebServerChans : WebServerChans :=
  { tagsCap := 10
    quitTagsCap := 0
    notifyCap := 10
    quitNotifyCap := 0
    registerCap := 0
    unregisterCap := 0 }

/-- Whether `serviceTagChannel` is blocked in its select loop, able to
receive on `tags`/`quitTags`: it is iff `ConnectToDB` succeeded, since on
error it returns before the loop (`web.go:166-169`) and otherwise only a
received quit makes it return. -/
def coordInSelect (connectOk : Bool) : Bool := connectOk

/-- How far the shutdown sequence at `web.go:268-273` gets. -/
inductive MainPhase
  | blockedOnQuitTags
  | blockedOnQuitNotify
  | finishedSleep
deriving DecidableEq, Repr

/-- The shutdown sequence: `svr.quitTags <- true` completes iff the
coordinator is receiving on `quitTags`; then `svr.quitNotify <- true`
completes iff the hub is receiving on `quitNotify`; then the grace sleep
runs.  A send with no receiver blocks the main goroutine forever at that
line. -/
def shutdownSequence (coordRecv hubRecv : Bool) : MainPhase :=
  if coordRecv then
    if hubRecv then .finishedSleep else .blockedOnQuitNotify
  else .blockedOnQuitTags

/-! ### Lemmas about the hub run -/

theorem serviceNotifyChannel_clients (tr : List HubEvent) (s : HubState) :
    (serviceNotifyChannel s tr).clients = clientsAfter s.clients tr := by
  induction tr generalizing s with
  | nil => rfl
  | cons e tr ih =>
    cases e with
    | register c =>
      simpa [serviceNotifyChannel, serviceNotifyStep, clientsAfter] using ih _
    | unregister c =>
      simpa [serviceNotifyChannel, serviceNotifyStep, clientsAfter] using ih _
    | notify n =>
      simpa [serviceNotifyChannel, serviceNotifyStep, clientsAfter] using ih _
    | quit => rfl

theorem clientsAfter_append (tr1 tr2 : List HubEvent) (cs : Finset Nat)
    (hq : HubEvent.quit ∉ tr1) :
    clientsAfter cs (tr1 ++ tr2) = clientsAfter (clientsAfter cs tr1) tr2 := by
  induction tr1 generalizing cs with
  | nil => rfl
  | cons e tr1 ih =>
    cases e with
    | register c =>
      simpa [clientsAfter] using ih _ (fun h => hq (List.mem_cons_of_mem _ h))
    | unregister c =>
      simpa [clientsAfter] using ih _ (fun h => hq (List.mem_cons_of_mem _ h))
    | notify n =>
      simpa [clientsAfter] using ih _ (fun h => hq (List.mem_cons_of_mem _ h))
    | quit => exact absurd (List.mem_cons_self _ _) hq

theorem serviceNotifyChannel_queues (tr : List HubEvent) (s : HubState) (c : Nat) :
    (serviceNotifyChannel s tr).queues c = s.queues c ++ deliveredFrom s.clients c tr := by
  induction tr generalizing s with
  | nil => simp [serviceNotifyChannel, deliveredFrom]
  | cons e tr ih =>
    cases e with
    | register c' =>
      simpa [serviceNotifyChannel, serviceNotifyStep, deliveredFrom] using ih _
    | unregister c' =>
      simpa [serviceNotifyChannel, serviceNotifyStep, deliveredFrom] using ih _
    | notify n =>
      have := ih (serviceNotifyStep s (.notify n))
      simp only [serviceNotifyChannel, serviceNotifyStep, deliveredFrom] at this ⊢
      rw [this]
      by_cases hc : c ∈ s.clients <;>
        simp [fanout, hc, List.append_assoc]
    | quit => simp [serviceNotifyChannel, deliveredFrom]

theorem deliveredFrom_append (tr1 tr2 : List HubEvent) (cs : Finset Nat) (c : Nat)
    (hq : HubEvent.quit ∉ tr1) :
    deliveredFrom cs c (tr1 ++ tr2)
      = deliveredFrom cs c tr1 ++ deliveredFrom (clientsAfter cs tr1) c tr2 := by
  induction tr1 generalizing cs with
  | nil => rfl
  | cons e tr1 ih =>
    cases e with
    | register c' =>
      simpa [deliveredFrom, clientsAfter]
        using ih _ (fun h => hq (List.mem_cons_of_mem _ h))
    | unregister c' =>
      simpa [deliveredFrom, clientsAfter]
        using ih _ (fun h => hq (List.mem_cons_of_mem _ h))
    | notify n =>
      have := ih cs (fun h => hq (List.mem_cons_of_mem _ h))
      simp only [deliveredFrom, clientsAfter, List.cons_append, List.append_eq]
        at this ⊢
      rw [this, List.append_assoc]
    | quit => exact absurd (List.mem_cons_self _ _) hq

theorem deliveredFrom_sublist (tr : List HubEvent) (cs : Finset Nat) (c : Nat) :
    (deliveredFrom cs c tr).Sublist (notifsOf tr) := by
  induction tr generalizing cs with
  | nil => simp [deliveredFrom, notifsOf]
  | cons e tr ih =>
    cases e with
    | register c' => simpa [deliveredFrom, notifsOf] using ih _
    | unregister c' => simpa [deliveredFrom, notifsOf] using ih _
    | notify n =>
      by_cases hc : c ∈ cs
      · simpa [deliveredFrom, notifsOf, hc] using (ih cs).cons₂ n
      · simpa [deliveredFrom, notifsOf, hc] using (ih cs).cons n
    | quit => simp [deliveredFrom, notifsOf]

theorem deliveredFrom_eq_nil (tr : List HubEvent) (cs : Finset Nat) (c : Nat)
    (hc : c ∉ cs) (hr : HubEvent.register c ∉ tr) :
    deliveredFrom cs c tr = [] := by
  induction tr generalizing cs with
  | nil => rfl
  | cons e tr ih =>
    cases e with
    | register c' =>
      have hcc : c ∉ insert c' cs := by
        intro h
        rcases Finset.mem_insert.mp h with h | h
        · exact hr (h ▸ List.mem_cons_self _ _)
        · exact hc h
      simpa [deliveredFrom]
        using ih _ hcc (fun h => hr (List.mem_cons_of_mem _ h))
    | unregister c' =>
      have hcc : c ∉ cs.erase c' := fun h => hc (Finset.mem_of_mem_erase h)
      simpa [deliveredFrom]
        using ih _ hcc (fun h => hr (List.mem_cons_of_mem _ h))
    | notify n =>
      simpa [deliveredFrom, hc]
        using ih cs hc (fun h => hr (List.mem_cons_of_mem _ h))
    | quit => rfl

/-! ### Lemmas about the coordinator, the sink and the bounded fan-out -/

theorem Merge.length_eq {ls : List (List Int)} {t : List Int}
    (h : Merge ls t) : t.length = (ls.map List.length).sum := by
  induction h with
  | nil m => simp
  | step pre suf x xs t _ ih =>
    simp only [List.map_append, List.sum_append, List.map_cons,
      List.sum_cons, List.length_cons] at ih ⊢
    omega

theorem serviceTagChannel_calls (env : Int → Option Notification) (tr : List Int) :
    (serviceTagChannel true env (tr.map CoordEvent.tag)).calls = tr := by
  induction tr with
  | nil => rfl
  | cons k tr ih =>
    simp only [serviceTagChannel, if_pos] at ih ⊢
    cases hk : env k <;>
      simp [serviceTagChannel.loop, hk, ih]

theorem handleNotify_unregisters_le_one (writeOk : Notification → Bool)
    (ns : List Notification) : (handleNotify writeOk ns).unregisters ≤ 1 := by
  induction ns with
  | nil => simp [handleNotify]
  | cons n ns ih =>
    by_cases hn : writeOk n <;> simp [handleNotify, hn, ih]

theorem handleNotify_all_ok (writeOk : Notification → Bool) (ns : List Notification)
    (h : ∀ m ∈ ns, writeOk m = true) : handleNotify writeOk ns = ⟨ns, 0⟩ := by
  induction ns with
  | nil => rfl
  | cons n ns ih =>
    have hn : writeOk n = true := h n (List.mem_cons_self _ _)
    have := ih (fun m hm => h m (List.mem_cons_of_mem _ hm))
    simp [handleNotify, hn, this]

theorem handleNotify_stops_at_failure (writeOk : Notification → Bool)
    (ns1 ns2 : List Notification) (n : Notification)
    (hok : ∀ m ∈ ns1, writeOk m = true) (hfail : writeOk n = false) :
    handleNotify writeOk (ns1 ++ n :: ns2) = ⟨ns1, 1⟩ := by
  induction ns1 with
  | nil => simp [handleNotify, hfail]
  | cons m ns1 ih =>
    have hm : writeOk m = true := hok m (List.mem_cons_self _ _)
    have := ih (fun m' hm' => hok m' (List.mem_cons_of_mem _ hm'))
    simp [handleNotify, hm, this]

theorem fanoutBounded_not_mem (order : List Nat) (qs : Nat → List Notification)
    (n : Notification) (c : Nat) (hc : c ∉ order) :
    (fanoutBounded qs n order).1 c = qs c := by
  induction order generalizing qs with
  | nil => rfl
  | cons c' order ih =>
    have hne : c ≠ c' := fun h => hc (h ▸ List.mem_cons_self _ _)
    have hco : c ∉ order := fun h => hc (List.mem_cons_of_mem _ h)
    cases hs : chanTrySend notifyClientSendCap (qs c') n with
    | none => simp [fanoutBounded, hs]
    | some q =>
      simp only [fanoutBounded, hs]
      rw [ih _ hco, Function.update_noteq hne]

theorem fanoutBounded_all_roomy (order : List Nat) (qs : Nat → List Notification)
    (n : Notification) (hnd : order.Nodup)
    (h : ∀ c ∈ order, (qs c).length < notifyClientSendCap) :
    (fanoutBounded qs n order).2 = true
    ∧ ∀ c ∈ order, (fanoutBounded qs n order).1 c = qs c ++ [n] := by
  induction order generalizing qs with
  | nil => exact ⟨rfl, fun c hc => absurd hc (List.not_mem_nil c)⟩
  | cons c0 order ih =>
    have hroom : (qs c0).length < notifyClientSendCap :=
      h c0 (List.mem_cons_self _ _)
    have hs : chanTrySend notifyClientSendCap (qs c0) n = some (qs c0 ++ [n]) := by
      simp [chanTrySend, hroom]
    have hnd' : order.Nodup := hnd.of_cons
    have hc0 : c0 ∉ order := by
      intro hmem
      exact (List.nodup_cons.mp hnd).1 hmem
    have hrest : ∀ c ∈ order,
        ((Function.update qs c0 (qs c0 ++ [n])) c).length < notifyClientSendCap := by
      intro c hc
      have hne : c ≠ c0 := fun he => hc0 (he ▸ hc)
      rw [Function.update_noteq hne]
      exact h c (List.mem_cons_of_mem _ hc)
    obtain ⟨hdone, hall⟩ := ih (Function.update qs c0 (qs c0 ++ [n])) hnd' hrest
    refine ⟨by simpa [fanoutBounded, hs] using hdone, ?_⟩
    intro c hc
    rcases List.mem_cons.mp hc with rfl | hc
    · have := fanoutBounded_not_mem order
        (Function.update qs c (qs c ++ [n])) n c hc0
      simp only [fanoutBounded, hs]
      rw [this, Function.update_same]
    · have := hall c hc
      have hne : c ≠ c0 := fun he => hc0 (he ▸ hc)
      simp only [fanoutBounded, hs]
      rw [this, Function.update_noteq hne]

/-! ### Claim theorems -/

/-- C1: a Notification processed by the hub is enqueued onto a
subscriber's delivery queue iff that subscriber is in the membership set
at the moment the hub processes it, and a subscriber registered only
after `n` was processed never receives `n`. -/
theorem hub_delivery_iff_membership (s : HubState) (n : Notification) (c : Nat)
    (tr1 tr2 : List HubEvent)
    (hq : HubEvent.quit ∉ tr1)
    (hn1 : n ∉ notifsOf tr1) (hn2 : n ∉ notifsOf tr2)
    (hc : c ∉ (serviceNotifyChannel hubInit tr1).clients) :
    ((serviceNotifyStep s (.notify n)).queues c = s.queues c ++ [n] ↔ c ∈ s.clients)
    ∧ ((serviceNotifyStep s (.notify n)).queues c = s.queues c ↔ c ∉ s.clients)
    ∧ n ∉ (serviceNotifyChannel hubInit
        (tr1 ++ HubEvent.notify n :: tr2)).queues c := by
  have hc' : c ∉ clientsAfter (∅ : Finset Nat) tr1 := by
    rwa [serviceNotifyChannel_clients] at hc
  refine ⟨?_, ?_, ?_⟩
  · by_cases hm : c ∈ s.clients <;> simp [serviceNotifyStep, fanout, hm]
  · by_cases hm : c ∈ s.clients <;> simp [serviceNotifyStep, fanout, hm]
  · rw [serviceNotifyChannel_queues]
    show n ∉ hubInit.queues c ++ deliveredFrom hubInit.clients c _
    rw [deliveredFrom_append _ _ _ _ hq]
    intro hmem
    simp only [hubInit, List.nil_append, List.mem_append] at hmem
    rcases hmem with h | h
    · exact hn1 ((deliveredFrom_sublist tr1 ∅ c).subset h)
    · simp only [deliveredFrom, hc', if_neg, List.nil_append] at h
      exact hn2 ((deliveredFrom_sublist tr2 _ c).subset h)

theorem hub_delivery_iff_membership_witness :
    ((serviceNotifyStep hubInit (.notify ⟨42, "Falcons", 7⟩)).queues 1
        = hubInit.queues 1 ++ [⟨42, "Falcons", 7⟩] ↔ 1 ∈ hubInit.clients)
    ∧ ((serviceNotifyStep hubInit (.notify ⟨42, "Falcons", 7⟩)).queues 1
        = hubInit.queues 1 ↔ 1 ∉ hubInit.clients)
    ∧ (⟨42, "Falcons", 7⟩ : Notification) ∉ (serviceNotifyChannel hubInit
        ([HubEvent.register 0] ++ HubEvent.notify ⟨42, "Falcons", 7⟩
          :: [HubEvent.register 1])).queues 1 :=
  hub_delivery_iff_membership hubInit ⟨42, "Falcons", 7⟩ 1
    [HubEvent.register 0] [HubEvent.register 1]
    (by decide) (by decide) (by decide) (by decide)

/-- C3: if the hub processes `n1` before `n2`, every subscriber
registered at both processing instants observes `n1` before `n2` in its
delivery queue, and every queue is a sublist of the hub's single
processing order. -/
theorem hub_order_preserved (tr1 tr2 tr3 : List HubEvent)
    (n1 n2 : Notification) (c : Nat)
    (hq1 : HubEvent.quit ∉ tr1) (hq2 : HubEvent.quit ∉ tr2)
    (h1 : c ∈ (serviceNotifyChannel hubInit tr1).clients)
    (h2 : c ∈ (serviceNotifyChannel hubInit
        (tr1 ++ HubEvent.notify n1 :: tr2)).clients) :
    (∃ l1 l2 l3,
      (serviceNotifyChannel hubInit
        (tr1 ++ HubEvent.notify n1 :: (tr2 ++ HubEvent.notify n2 :: tr3))).queues c
        = l1 ++ n1 :: (l2 ++ n2 :: l3))
    ∧ ((serviceNotifyChannel hubInit
        (tr1 ++ HubEvent.notify n1 :: (tr2 ++ HubEvent.notify n2 :: tr3))).queues c).Sublist
        (notifsOf (tr1 ++ HubEvent.notify n1 :: (tr2 ++ HubEvent.notify n2 :: tr3))) := by
  have hc1 : c ∈ clientsAfter (∅ : Finset Nat) tr1 := by
    rwa [serviceNotifyChannel_clients] at h1
  have hc2 : c ∈ clientsAfter (clientsAfter (∅ : Finset Nat) tr1) tr2 := by
    rw [serviceNotifyChannel_clients, clientsAfter_append _ _ _ hq1] at h2
    simpa [clientsAfter] using h2
  constructor
  · refine ⟨deliveredFrom ∅ c tr1,
      deliveredFrom (clientsAfter ∅ tr1) c tr2,
      deliveredFrom (clientsAfter (clientsAfter ∅ tr1) tr2) c tr3, ?_⟩
    rw [serviceNotifyChannel_queues]
    show hubInit.queues c ++ deliveredFrom hubInit.clients c _ = _
    rw [deliveredFrom_append _ _ _ _ hq1]
    show hubInit.queues c ++ (_ ++ deliveredFrom (clientsAfter ∅ tr1) c _) = _
    simp only [deliveredFrom, hc1, if_pos]
    rw [deliveredFrom_append _ _ _ _ hq2]
    simp only [deliveredFrom, hc2, if_pos]
    simp [hubInit]
  · rw [serviceNotifyChannel_queues]
    show (hubInit.queues c ++ deliveredFrom hubInit.clients c _).Sublist _
    simpa [hubInit] using deliveredFrom_sublist
      (tr1 ++ HubEvent.notify n1 :: (tr2 ++ HubEvent.notify n2 :: tr3)) ∅ c

theorem hub_order_preserved_witness :
    (∃ l1 l2 l3,
      (serviceNotifyChannel hubInit
        ([HubEvent.register 0] ++ HubEvent.notify ⟨10, "A", 1⟩
          :: ([] ++ HubEvent.notify ⟨11, "B", 2⟩ :: []))).queues 0
        = l1 ++ (⟨10, "A", 1⟩ : Notification)
            :: (l2 ++ (⟨11, "B", 2⟩ : Notification) :: l3))
    ∧ ((serviceNotifyChannel hubInit
        ([HubEvent.register 0] ++ HubEvent.notify ⟨10, "A", 1⟩
          :: ([] ++ HubEvent.notify ⟨11, "B", 2⟩ :: []))).queues 0).Sublist
        (notifsOf ([HubEvent.register 0] ++ HubEvent.notify ⟨10, "A", 1⟩
          :: ([] ++ HubEvent.notify ⟨11, "B", 2⟩ :: []))) :=
  hub_order_preserved [HubEvent.register 0] [] [] ⟨10, "A", 1⟩ ⟨11, "B", 2⟩ 0
    (by decide) (by decide) (by decide) (by decide)

/-- C8: unregistering an absent subscriber is a no-op that does not
affect any other subscriber, and registering an already-registered
subscriber leaves the hub state unchanged. -/
theorem hub_unregister_noop_register_idempotent (s : HubState) (c c' : Nat) :
    (c ∉ s.clients → serviceNotifyStep s (.unregister c) = s)
    ∧ (c' ≠ c →
        ((c' ∈ (serviceNotifyStep s (.unregister c)).clients ↔ c' ∈ s.clients)
          ∧ (serviceNotifyStep s (.unregister c)).queues c' = s.queues c'))
    ∧ (c ∈ s.clients → serviceNotifyStep s (.register c) = s) := by
  obtain ⟨cs, qs⟩ := s
  refine ⟨?_, ?_, ?_⟩
  · intro h
    simp only [serviceNotifyStep]
    rw [Finset.erase_eq_of_not_mem h]
  · intro h
    exact ⟨by simp [serviceNotifyStep, Finset.mem_erase, h], rfl⟩
  · intro h
    simp only [serviceNotifyStep]
    rw [Finset.insert_eq_self.mpr h]

theorem hub_unregister_noop_register_idempotent_witness :
    (serviceNotifyStep hubInit (.unregister 0) = hubInit)
    ∧ ((1 ∈ (serviceNotifyStep hubInit (.unregister 0)).clients
          ↔ 1 ∈ hubInit.clients)
        ∧ (serviceNotifyStep hubInit (.unregister 0)).queues 1
          = hubInit.queues 1)
    ∧ (serviceNotifyStep (serviceNotifyStep hubInit (.register 2)) (.register 2)
        = serviceNotifyStep hubInit (.register 2)) :=
  ⟨(hub_unregister_noop_register_idempotent hubInit 0 1).1 (by decide),
   (hub_unregister_noop_register_idempotent hubInit 0 1).2.1 (by decide),
   (hub_unregister_noop_register_idempotent
      (serviceNotifyStep hubInit (.register 2)) 2 0).2.2 (by decide)⟩

/-- C2: whatever interleaving of the reader connections' successfully
parsed tag sequences the shared `tags` channel delivers, the single
coordinator invokes `IncrementLaps` exactly once per delivered tag, in
delivery order (the call list is the delivered sequence itself, so calls
are serialized), and the number of calls is the total number of
successfully parsed tags. -/
theorem coordinator_serializes_increments (framess : List (List Frame))
    (tr : List Int) (env : Int → Option Notification)
    (h : Merge (framess.map handleLaps) tr) :
    (serviceTagChannel true env (tr.map CoordEvent.tag)).calls = tr
    ∧ tr.length = ((framess.map handleLaps).map List.length).sum :=
  ⟨serviceTagChannel_calls env tr, h.length_eq⟩

theorem coordinator_serializes_increments_witness :
    (serviceTagChannel true (fun _ => none)
        (([10, 11] : List Int).map CoordEvent.tag)).calls = [10, 11]
    ∧ ([10, 11] : List Int).length
        = (([[Frame.msg ['1', '0']], [Frame.msg ['1', '1']]].map
            handleLaps).map List.length).sum := by
  refine coordinator_serializes_increments
    [[Frame.msg ['1', '0']], [Frame.msg ['1', '1']]] [10, 11] (fun _ => none) ?_
  have e : [[Frame.msg ['1', '0']], [Frame.msg ['1', '1']]].map handleLaps
      = [[10], [11]] := by decide
  rw [e]
  have h0 : Merge [[], []] [] := Merge.nil 2
  have h1 : Merge [[], [11]] [11] := Merge.step [[]] [] 11 [] [] h0
  exact Merge.step [] [[11]] 10 [] [11] h1

/-- C5 counterexample: the claim says a failed `IncrementLaps` is
"dropped and logged", but the tag case of the coordinator's select loop
(`web.go:175-177`) has no else branch: here `IncrementLaps(7)` fails and
the loop writes no log line at all. -/
theorem coordinator_failure_not_logged_counterexample :
    (fun _ => (none : Option Notification)) 7 = none
    ∧ coordLoopLogs (fun _ => none) [CoordEvent.tag 7] = [] := by
  exact ⟨rfl, rfl⟩

/-- C5 amended: a tag identifier whose `IncrementLaps` call fails
triggers exactly one call (no retry), emits no notification, is dropped
silently — the loop logs nothing for it — and the coordinator goes on to
process the remaining events (the task does not terminate). -/
theorem coordinator_drops_failed_increment (env : Int → Option Notification)
    (k : Int) (tr : List CoordEvent) (hk : env k = none) :
    serviceTagChannel true env (CoordEvent.tag k :: tr)
      = ⟨k :: (serviceTagChannel true env tr).calls,
         (serviceTagChannel true env tr).notifs,
         (serviceTagChannel true env tr).consumed + 1⟩
    ∧ coordLoopLogs env (CoordEvent.tag k :: tr) = coordLoopLogs env tr := by
  constructor
  · simp [serviceTagChannel, serviceTagChannel.loop, hk]
  · simp [coordLoopLogs, hk]

theorem coordinator_drops_failed_increment_witness :
    (serviceTagChannel true (fun _ => none)
        (CoordEvent.tag 7 :: [CoordEvent.tag 3])
      = ⟨7 :: (serviceTagChannel true (fun _ => none) [CoordEvent.tag 3]).calls,
         (serviceTagChannel true (fun _ => none) [CoordEvent.tag 3]).notifs,
         (serviceTagChannel true (fun _ => none) [CoordEvent.tag 3]).consumed + 1⟩)
    ∧ coordLoopLogs (fun _ => none) (CoordEvent.tag 7 :: [CoordEvent.tag 3])
      = coordLoopLogs (fun _ => none) [CoordEvent.tag 3] :=
  coordinator_drops_failed_increment (fun _ => none) 7 [CoordEvent.tag 3] rfl

/-- C7: an inbound frame that fails to parse as a decimal integer is
logged and contributes no tag id to the ingestion channel — hence no
storage call and no notification — and the reader connection keeps
processing the subsequent frames. -/
theorem reader_drops_malformed_frame (s : List Char) (rest : List Frame)
    (env : Int → Option Notification) (hs : goAtoi s = none) :
    handleLaps (Frame.msg s :: rest) = handleLaps rest
    ∧ handleLapsLogs (Frame.msg s :: rest)
      = "strconv.Atoi: " :: handleLapsLogs rest
    ∧ serviceTagChannel true env
        ((handleLaps (Frame.msg s :: rest)).map CoordEvent.tag)
      = serviceTagChannel true env ((handleLaps rest).map CoordEvent.tag) := by
  have h : handleLaps (Frame.msg s :: rest) = handleLaps rest := by
    simp [handleLaps, hs]
  exact ⟨h, by simp [handleLapsLogs, hs], by rw [h]⟩

theorem reader_drops_malformed_frame_witness :
    handleLaps (Frame.msg ['a', 'b', 'c'] :: [Frame.msg ['4', '2']])
      = handleLaps [Frame.msg ['4', '2']]
    ∧ handleLapsLogs (Frame.msg ['a', 'b', 'c'] :: [Frame.msg ['4', '2']])
      = "strconv.Atoi: " :: handleLapsLogs [Frame.msg ['4', '2']]
    ∧ serviceTagChannel true (fun _ => none)
        ((handleLaps (Frame.msg ['a', 'b', 'c']
          :: [Frame.msg ['4', '2']])).map CoordEvent.tag)
      = serviceTagChannel true (fun _ => none)
        ((handleLaps [Frame.msg ['4', '2']]).map CoordEvent.tag) :=
  reader_drops_malformed_frame ['a', 'b', 'c'] [Frame.msg ['4', '2']]
    (fun _ => none) (by decide)

/-- C4 counterexample: with subscriber 0's capacity-10 queue full and
never drained and map iteration order `[0, 1]`, the hub's fan-out of a
new notification suspends on the blocking send to subscriber 0
(`client.send <- notif`, `web.go:222`) and the registered subscriber 1
never receives the notification — the blocking send does starve delivery
to another registered subscriber. -/
theorem hub_fanout_starvation_counterexample :
    (fanoutBounded fullQueueState ⟨1, "new", 1⟩ [0, 1]).2 = false
    ∧ (⟨1, "new", 1⟩ : Notification) ∉
        (fanoutBounded fullQueueState ⟨1, "new", 1⟩ [0, 1]).1 1 := by
  decide

/-- C4 amended: the hub's per-subscriber enqueue is a blocking send on a
capacity-10 queue, so fan-out completes without blocking — delivering to
every registered subscriber — precisely when every subscriber's queue has
spare capacity; a full, undrained queue suspends the hub's loop on that
send and starves the subscribers later in the iteration order. -/
theorem hub_fanout_completes_when_roomy (qs : Nat → List Notification)
    (n : Notification) (order : List Nat) (hnd : order.Nodup)
    (h : ∀ c ∈ order, (qs c).length < notifyClientSendCap) :
    (fanoutBounded qs n order).2 = true
    ∧ ∀ c ∈ order, (fanoutBounded qs n order).1 c = qs c ++ [n] :=
  fanoutBounded_all_roomy order qs n hnd h

theorem hub_fanout_completes_when_roomy_witness :
    (fanoutBounded (fun _ => []) ⟨1, "new", 1⟩ [0, 1]).2 = true
    ∧ ∀ c ∈ ([0, 1] : List Nat),
        (fanoutBounded (fun _ => []) ⟨1, "new", 1⟩ [0, 1]).1 c
          = (fun _ => ([] : List Notification)) c ++ [⟨1, "new", 1⟩] :=
  hub_fanout_completes_when_roomy (fun _ => []) ⟨1, "new", 1⟩ [0, 1]
    (by decide) (by decide)

/-- C6: a failed transport write makes the sink adapter send exactly one
unregister and stop (the queued notifications after the failure are never
written); a sink whose writes all succeed sends no unregister; once the
hub processes the unregister, the subscriber is out of the membership set
and — absent re-registration — its queue receives nothing further; and
the only hub step that removes a registered subscriber is that
subscriber's own unregister event. -/
theorem sink_write_failure_unregisters (writeOk : Notification → Bool)
    (ns1 ns2 : List Notification) (n : Notification)
    (s : HubState) (e : HubEvent) (c : Nat) (tr : List HubEvent)
    (hok : ∀ m ∈ ns1, writeOk m = true) (hfail : writeOk n = false)
    (hreg : HubEvent.register c ∉ tr) :
    handleNotify writeOk (ns1 ++ n :: ns2) = ⟨ns1, 1⟩
    ∧ (∀ ms : List Notification, (handleNotify writeOk ms).unregisters ≤ 1)
    ∧ (∀ ms : List Notification, (∀ m ∈ ms, writeOk m = true) →
        handleNotify writeOk ms = ⟨ms, 0⟩)
    ∧ c ∉ (serviceNotifyStep s (.unregister c)).clients
    ∧ (serviceNotifyChannel (serviceNotifyStep s (.unregister c)) tr).queues c
        = s.queues c
    ∧ (c ∈ s.clients → c ∉ (serviceNotifyStep s e).clients →
        e = HubEvent.unregister c) := by
  refine ⟨handleNotify_stops_at_failure writeOk ns1 ns2 n hok hfail,
    handleNotify_unregisters_le_one writeOk,
    fun ms => handleNotify_all_ok writeOk ms, ?_, ?_, ?_⟩
  · exact Finset.not_mem_erase c s.clients
  · rw [serviceNotifyChannel_queues]
    show s.queues c ++ deliveredFrom (s.clients.erase c) c tr = s.queues c
    rw [deliveredFrom_eq_nil tr _ c (Finset.not_mem_erase c s.clients) hreg]
    simp
  · intro hin hout
    cases e with
    | register c' => exact absurd (Finset.mem_insert_of_mem hin) hout
    | unregister c' =>
      by_cases hcc : c = c'
      · rw [hcc]
      · exact absurd (Finset.mem_erase_of_ne_of_mem hcc hin) hout
    | notify n' => exact absurd hin hout
    | quit => exact absurd hin hout

theorem sink_write_failure_unregisters_witness :
    handleNotify (fun m => m.count == 0)
        ([⟨1, "a", 0⟩] ++ (⟨2, "b", 7⟩ : Notification) :: [⟨3, "c", 0⟩])
      = ⟨[⟨1, "a", 0⟩], 1⟩
    ∧ (∀ ms : List Notification,
        (handleNotify (fun m => m.count == 0) ms).unregisters ≤ 1)
    ∧ (∀ ms : List Notification, (∀ m ∈ ms, (m.count == 0) = true) →
        handleNotify (fun m => m.count == 0) ms = ⟨ms, 0⟩)
    ∧ 4 ∉ (serviceNotifyStep (serviceNotifyStep hubInit (.register 4))
        (.unregister 4)).clients
    ∧ (serviceNotifyChannel (serviceNotifyStep
        (serviceNotifyStep hubInit (.register 4)) (.unregister 4))
        [HubEvent.notify ⟨9, "z", 9⟩]).queues 4
        = (serviceNotifyStep hubInit (.register 4)).queues 4
    ∧ (4 ∈ (serviceNotifyStep hubInit (.register 4)).clients →
        4 ∉ (serviceNotifyStep (serviceNotifyStep hubInit (.register 4))
          (.unregister 4)).clients →
        HubEvent.unregister 4 = HubEvent.unregister 4) :=
  sink_write_failure_unregisters (fun m => m.count == 0)
    [⟨1, "a", 0⟩] [⟨3, "c", 0⟩] ⟨2, "b", 7⟩
    (serviceNotifyStep hubInit (.register 4)) (HubEvent.unregister 4) 4
    [HubEvent.notify ⟨9, "z", 9⟩]
    (by decide) (by decide) (by decide)

/-- C9: when `ConnectToDB` fails at coordinator startup, the coordinator
task returns at once, receiving nothing from `tags` or `quitTags`; the
shutdown sequence's send on the unbuffered `quitTags` channel then has no
receiver, so the main goroutine stays blocked before the `quitNotify`
send — the hub is never told to quit and the final grace sleep never
runs. -/
theorem startup_failure_wedges_shutdown (env : Int → Option Notification)
    (events : List CoordEvent) (hubRecv : Bool) :
    serviceTagChannel false env events = ⟨[], [], 0⟩
    ∧ coordInSelect false = false
    ∧ shutdownSequence (coordInSelect false) hubRecv
        = MainPhase.blockedOnQuitTags
    ∧ MainPhase.blockedOnQuitTags ≠ MainPhase.blockedOnQuitNotify
    ∧ MainPhase.blockedOnQuitTags ≠ MainPhase.finishedSleep := by
  exact ⟨by simp [serviceTagChannel], rfl, rfl, by decide, by decide⟩

/-- C10: the `tags` and `notify` channels and each client's `send`
channel are created with capacity exactly 10 — a send on a capacity-10
channel completes immediately iff fewer than 10 items are buffered — and
the `register` and `unregister` channels are unbuffered (capacity 0). -/
theorem channel_capacities (buf : List Notification) (n : Notification) :
    startWebServerChans.tagsCap = 10
    ∧ startWebServerChans.notifyCap = 10
    ∧ notifyClientSendCap = 10
    ∧ startWebServerChans.registerCap = 0
    ∧ startWebServerChans.unregisterCap = 0
    ∧ (chanTrySend notifyClientSendCap buf n = none ↔ 10 ≤ buf.length) := by
  refine ⟨rfl, rfl, rfl, rfl, rfl, ?_⟩
  constructor
  · intro h
    by_contra hge
    push_neg at hge
    simp [chanTrySend, notifyClientSendCap, hge] at h
  · intro h
    have hno : ¬ buf.length < 10 := by omega
    simp [chanTrySend, notifyClientSendCap, hno]
